import Mathlib

/-!
Shallow embedding of the snof snowflake-identifier generator (src/lib.rs)
and proofs about its generation algorithm, bit packing and error handling.

Machine integers are modelled as `Nat` with explicit `% 2 ^ 64` where Rust
u64 arithmetic can truncate; `Nat` subtraction coincides with Rust's
`saturating_sub`; a Rust panic is modelled as `Option.none` (for the
constructors) or as the `StepResult.fatal` outcome (inside `generate`).
-/

namespace Snof

/-- Unix timestamp of Jan 01 2026 00:00:00 GMT+0000 in milliseconds
(the constant `EPOCH` in lib.rs, a `u128`). -/
def EPOCH : Nat := 1767225600000

/-- Out of the 64 bits of the identifier, the last 22 are reserved for the
sequence (the constant `SEQUENCE_BITS`). -/
def SEQUENCE_BITS : Nat := 22

/-- Mask for extracting the sequence bits
(the constant `SEQUENCE_MASK = (1 << SEQUENCE_BITS) - 1`). -/
def SEQUENCE_MASK : Nat := (1 <<< SEQUENCE_BITS) - 1

/-- Embedding of `Snowflake::new(timestamp: u128, sequence: u64)`.
`none` models a panic: in debug profile the u128 subtraction
`timestamp - EPOCH` overflows when `timestamp < EPOCH` (in release it wraps
to a value at least `2 ^ 64`, and the subsequent `u64::try_from(..)` then
fails with the message in the source, so both profiles panic); `try_from`
also fails when the difference itself is at least `2 ^ 64`.  Otherwise the
word is `(u64 value of the difference) << SEQUENCE_BITS | (sequence & mask)`
with the u64 shift truncating modulo `2 ^ 64`. -/
def snowflakeNew (timestamp sequence : Nat) : Option Nat :=
  if timestamp < EPOCH then none
  else if 2 ^ 64 ≤ timestamp - EPOCH then none
  else some ((((timestamp - EPOCH) <<< SEQUENCE_BITS) % 2 ^ 64) |||
    (sequence &&& SEQUENCE_MASK))

/-- Embedding of `SnowflakeGenerator::new()` as a function of the clock
reading `now_ms` it obtains from `unix_timestamp_now_ms()`: the initial
state word is `Snowflake::new(now_ms, 0)`; `none` models a panic. -/
def generatorNew (now_ms : Nat) : Option Nat := snowflakeNew now_ms 0

/-- Embedding of the computation of `now_ts` inside `generate`:
`u64::try_from(now_ms.saturating_sub(EPOCH)).expect(..)`.  `Nat`
subtraction is saturating, and `none` models the `expect` panic when the
saturated difference does not fit in a u64. -/
def nowTs (now_ms : Nat) : Option Nat :=
  if 2 ^ 64 ≤ now_ms - EPOCH then none else some (now_ms - EPOCH)

/-- Outcome of one iteration of the CAS loop body of
`SnowflakeGenerator::generate`. -/
inductive StepResult : Type where
  /-- The `expect` on `u64::try_from` fires: the whole call panics. -/
  | fatal : StepResult
  /-- `spin_loop()` then reload `last_state` and `continue`: no
  compare-and-swap is attempted in this iteration. -/
  | retry : StepResult
  /-- `compare_exchange_weak(current_bits, next_bits, ..)` is attempted
  with this `next_bits` value. -/
  | cas : Nat → StepResult
deriving DecidableEq

/-- One iteration of the loop body of `SnowflakeGenerator::generate`, as a
function of the loaded state word `current_bits` and the clock reading
`now_ms` of this iteration.  In the source, `last_ts = current_bits >>
SEQUENCE_BITS` and `last_seq = current_bits & SEQUENCE_MASK` are unpacked,
`now_ts` is computed as in `nowTs` (first guard: its `expect` panic), and
the three following arms are the `Greater`, `Equal` and `Less` cases of
`now_ts.cmp(&last_ts)`; u64 shifts truncate modulo `2 ^ 64`. -/
def generateStep (current_bits now_ms : Nat) : StepResult :=
  if 2 ^ 64 ≤ now_ms - EPOCH then StepResult.fatal
  else if current_bits >>> SEQUENCE_BITS < now_ms - EPOCH then
    StepResult.cas (((now_ms - EPOCH) <<< SEQUENCE_BITS) % 2 ^ 64)
  else if now_ms - EPOCH = current_bits >>> SEQUENCE_BITS then
    if SEQUENCE_MASK < (current_bits &&& SEQUENCE_MASK) + 1 then
      StepResult.retry
    else
      StepResult.cas ((((current_bits >>> SEQUENCE_BITS) <<< SEQUENCE_BITS) % 2 ^ 64) |||
        ((current_bits &&& SEQUENCE_MASK) + 1))
  else
    StepResult.retry

/-- Embedding of `Snowflake::extract_unix_timestamp`: `(self.0 >>
SEQUENCE_BITS) as u128 + EPOCH` (the u128 addition cannot overflow for any
u64 word, so plain `Nat` addition is exact). -/
def extract_unix_timestamp (w : Nat) : Nat :=
  (w >>> SEQUENCE_BITS) + EPOCH

/-- The 64-bit word layout shared by `Snowflake::new` and the candidate
states built inside `generate`: the relative timestamp shifted left by
`SEQUENCE_BITS` (u64 shift, truncating modulo `2 ^ 64`) or-ed with the
sequence masked to its 22 bits. -/
def pack (timestamp_rel sequence : Nat) : Nat :=
  ((timestamp_rel <<< SEQUENCE_BITS) % 2 ^ 64) ||| (sequence &&& SEQUENCE_MASK)

/-- A successful compare-and-swap transition of the stored state under a
well-behaved clock: some clock reading whose relative timestamp fits the
42-bit field takes the stored word `s` to `s'`.  (`compare_exchange_weak`
succeeds only if the stored word still equals the loaded `current_bits`,
so a successful CAS from stored word `s` installs exactly the candidate
computed by `generateStep s now_ms`.) -/
def BStep (s s' : Nat) : Prop :=
  ∃ now_ms, now_ms - EPOCH < 2 ^ 42 ∧ generateStep s now_ms = StepResult.cas s'

/-- How one iteration outcome continues the loop: a CAS attempt succeeds
(uncontended run, the stored word is unchanged) and its candidate is
returned, a retry continues with the rest of the run, a panic aborts. -/
def stepOutcome (res : StepResult) (rest : Option Nat) : Option Nat :=
  match res with
  | StepResult.cas s' => some s'
  | StepResult.retry => rest
  | StepResult.fatal => none

/-- Run of `generate` by a single thread with no interference from other
threads: the stored state stays `s` until the first CAS attempt, and that
CAS then succeeds because the word is unchanged.  `clock i` is the reading
obtained in iteration `i`; `fuel` bounds the number of modelled iterations
and `none` means no CAS was attempted within `fuel` iterations (or the
call panicked). -/
def generateRun (s : Nat) (clock : Nat → Nat) : Nat → Nat → Option Nat
  | _, 0 => none
  | i, fuel + 1 =>
    stepOutcome (generateStep s (clock i)) (generateRun s clock (i + 1) fuel)

/-! ### Arithmetic bridging lemmas for the bit operations -/

lemma sequenceMask_eq : SEQUENCE_MASK = 2 ^ SEQUENCE_BITS - 1 := by decide

lemma land_mask (x : Nat) : x &&& SEQUENCE_MASK = x % 2 ^ SEQUENCE_BITS := by
  rw [sequenceMask_eq]
  exact Nat.and_pow_two_sub_one_eq_mod x SEQUENCE_BITS

lemma shiftRight_eq_div (x : Nat) : x >>> SEQUENCE_BITS = x / 2 ^ SEQUENCE_BITS :=
  Nat.shiftRight_eq_div_pow x SEQUENCE_BITS

lemma shiftLeft_eq_mul (x : Nat) : x <<< SEQUENCE_BITS = x * 2 ^ SEQUENCE_BITS :=
  Nat.shiftLeft_eq x SEQUENCE_BITS

lemma lor_low (a b : Nat) (hb : b < 2 ^ SEQUENCE_BITS) :
    (a * 2 ^ SEQUENCE_BITS) ||| b = a * 2 ^ SEQUENCE_BITS + b := by
  rw [Nat.mul_comm a (2 ^ SEQUENCE_BITS)]
  exact (Nat.mul_add_lt_is_or hb a).symm

lemma pack_eq_of_fits (ts seq : Nat) (hts : ts < 2 ^ 42) (hseq : seq < 2 ^ SEQUENCE_BITS) :
    pack ts seq = ts * 2 ^ SEQUENCE_BITS + seq := by
  have h1 : ts * 2 ^ SEQUENCE_BITS < 2 ^ 64 := by
    have : SEQUENCE_BITS = 22 := rfl
    rw [this]; rw [this] at hseq
    calc ts * 2 ^ 22 < 2 ^ 42 * 2 ^ 22 := by
          exact (Nat.mul_lt_mul_right (by norm_num)).mpr hts
      _ = 2 ^ 64 := by norm_num
  unfold pack
  rw [shiftLeft_eq_mul, Nat.mod_eq_of_lt h1, land_mask, Nat.mod_eq_of_lt hseq,
    lor_low ts seq hseq]

lemma land_mask_lt (s : Nat) : s &&& SEQUENCE_MASK < 2 ^ SEQUENCE_BITS := by
  rw [land_mask]
  exact Nat.mod_lt _ (by norm_num)

lemma state_decomposition (s : Nat) :
    s = (s >>> SEQUENCE_BITS) * 2 ^ SEQUENCE_BITS + (s &&& SEQUENCE_MASK) := by
  rw [shiftRight_eq_div, land_mask]
  have : SEQUENCE_BITS = 22 := rfl
  rw [this]
  omega

lemma shiftRight_lt_42 {s : Nat} (hs : s < 2 ^ 64) :
    s >>> SEQUENCE_BITS < 2 ^ 42 := by
  rw [shiftRight_eq_div]
  have : SEQUENCE_BITS = 22 := rfl
  rw [this]
  omega

/-- Inversion: what a CAS-attempting iteration tells us.  Either the clock
advanced past the stored timestamp (Greater arm) or it stayed on the same
millisecond with a non-exhausted sequence (Equal arm). -/
lemma generateStep_cas_elim {s s' now_ms : Nat}
    (h : generateStep s now_ms = StepResult.cas s') :
    now_ms - EPOCH < 2 ^ 64 ∧
    ((s >>> SEQUENCE_BITS < now_ms - EPOCH ∧
        s' = (((now_ms - EPOCH) * 2 ^ SEQUENCE_BITS) % 2 ^ 64)) ∨
      (now_ms - EPOCH = s >>> SEQUENCE_BITS ∧
        (s &&& SEQUENCE_MASK) + 1 ≤ SEQUENCE_MASK ∧
        s' = (((s >>> SEQUENCE_BITS) * 2 ^ SEQUENCE_BITS) % 2 ^ 64) |||
          ((s &&& SEQUENCE_MASK) + 1))) := by
  rw [← shiftLeft_eq_mul, ← shiftLeft_eq_mul]
  unfold generateStep at h
  split at h
  · exact StepResult.noConfusion h
  · split at h
    · exact ⟨by omega, Or.inl ⟨by assumption, ((StepResult.cas.injEq _ _).mp h).symm⟩⟩
    · split at h
      · split at h
        · exact StepResult.noConfusion h
        · exact ⟨by omega, Or.inr ⟨by omega, by omega, ((StepResult.cas.injEq _ _).mp h).symm⟩⟩
      · exact StepResult.noConfusion h

/-- In the Equal arm with room left in the sequence, the candidate word is
exactly the loaded word plus one. -/
lemma cas_equal_eq_succ {s s' now_ms : Nat} (hs : s < 2 ^ 64)
    (hts : now_ms - EPOCH = s >>> SEQUENCE_BITS)
    (h : generateStep s now_ms = StepResult.cas s') : s' = s + 1 := by
  obtain ⟨-, hcase⟩ := generateStep_cas_elim h
  rcases hcase with ⟨hgt, -⟩ | ⟨-, hseq, hval⟩
  · omega
  · have ht42 : s >>> SEQUENCE_BITS < 2 ^ 42 := shiftRight_lt_42 hs
    have hmul : (s >>> SEQUENCE_BITS) * 2 ^ SEQUENCE_BITS < 2 ^ 64 := by
      have : SEQUENCE_BITS = 22 := rfl
      rw [this]; omega
    rw [Nat.mod_eq_of_lt hmul] at hval
    have hlow : (s &&& SEQUENCE_MASK) + 1 < 2 ^ SEQUENCE_BITS := by
      have := land_mask_lt s
      have hm : SEQUENCE_MASK = 2 ^ SEQUENCE_BITS - 1 := sequenceMask_eq
      omega
    rw [lor_low _ _ hlow] at hval
    have hdec := state_decomposition s
    omega

/-- In the Greater arm, the candidate word is the (possibly truncated)
shifted fresh timestamp. -/
lemma cas_greater_eq {s s' now_ms : Nat}
    (hgt : s >>> SEQUENCE_BITS < now_ms - EPOCH)
    (h : generateStep s now_ms = StepResult.cas s') :
    s' = ((now_ms - EPOCH) * 2 ^ SEQUENCE_BITS) % 2 ^ 64 := by
  obtain ⟨-, hcase⟩ := generateStep_cas_elim h
  rcases hcase with ⟨-, hval⟩ | ⟨heq, -, -⟩
  · exact hval
  · omega

/-- Any CAS attempted from a well-formed word again proposes a word below
`2 ^ 64`. -/
lemma cas_lt_u64 {s s' now_ms : Nat} (hs : s < 2 ^ 64)
    (h : generateStep s now_ms = StepResult.cas s') : s' < 2 ^ 64 := by
  obtain ⟨-, hcase⟩ := generateStep_cas_elim h
  rcases hcase with ⟨-, hval⟩ | ⟨heq, hseq, -⟩
  · rw [hval]; exact Nat.mod_lt _ (by norm_num)
  · have h1 : s' = s + 1 := cas_equal_eq_succ hs (by omega) h
    have h2 : s &&& SEQUENCE_MASK = s % 4194304 := by
      rw [land_mask]
      norm_num [SEQUENCE_BITS]
    have h3 : SEQUENCE_MASK = 4194303 := by decide
    omega

/-- If every relative timestamp observed fits the 42-bit field, an attempted
CAS strictly increases the state word. -/
lemma cas_strict_mono {s s' now_ms : Nat} (hs : s < 2 ^ 64)
    (hfit : now_ms - EPOCH < 2 ^ 42)
    (h : generateStep s now_ms = StepResult.cas s') : s < s' := by
  obtain ⟨-, hcase⟩ := generateStep_cas_elim h
  rcases hcase with ⟨hgt, hval⟩ | ⟨heq, -, -⟩
  · have hmul : (now_ms - EPOCH) * 2 ^ SEQUENCE_BITS < 2 ^ 64 := by
      have : SEQUENCE_BITS = 22 := rfl
      rw [this]; omega
    rw [Nat.mod_eq_of_lt hmul] at hval
    have hdec := state_decomposition s
    have hq := land_mask_lt s
    have hsb : SEQUENCE_BITS = 22 := rfl
    rw [hsb] at hdec hq hval hgt
    omega
  · have : s' = s + 1 := cas_equal_eq_succ hs (by omega) h
    omega

lemma pow_bits_lit : (2 : Nat) ^ SEQUENCE_BITS = 4194304 := by
  norm_num [SEQUENCE_BITS]

lemma mask_lit : SEQUENCE_MASK = 4194303 := by decide

lemma land_mask_lit (x : Nat) : x &&& SEQUENCE_MASK = x % 4194304 := by
  rw [land_mask, pow_bits_lit]

lemma shiftRight_lit (x : Nat) : x >>> SEQUENCE_BITS = x / 4194304 := by
  rw [shiftRight_eq_div, pow_bits_lit]

lemma lor_low_lit (a b : Nat) (hb : b < 4194304) :
    (a * 4194304) ||| b = a * 4194304 + b := by
  have h := lor_low a b (by rw [pow_bits_lit]; omega)
  rw [pow_bits_lit] at h
  exact h

/-- The Less arm: a clock reading strictly behind the stored timestamp
leads to spin-and-retry, never to a CAS attempt or a panic. -/
lemma less_implies_retry {s now_ms : Nat} (hs : s < 2 ^ 64)
    (hlt : now_ms - EPOCH < s >>> SEQUENCE_BITS) :
    generateStep s now_ms = StepResult.retry := by
  have h42 : s >>> SEQUENCE_BITS < 2 ^ 42 := shiftRight_lt_42 hs
  unfold generateStep
  rw [if_neg (by omega), if_neg (by omega), if_neg (by omega)]

/-- The Equal arm with an exhausted sequence: spin-and-retry, no CAS. -/
lemma exhausted_implies_retry {s now_ms : Nat} (hs : s < 2 ^ 64)
    (hts : now_ms - EPOCH = s >>> SEQUENCE_BITS)
    (hmask : s &&& SEQUENCE_MASK = SEQUENCE_MASK) :
    generateStep s now_ms = StepResult.retry := by
  have h42 : s >>> SEQUENCE_BITS < 2 ^ 42 := shiftRight_lt_42 hs
  unfold generateStep
  rw [if_neg (by omega), if_neg (by omega), if_pos hts,
    if_pos (by rw [hmask]; exact Nat.lt_succ_self _)]

/-- The only panic inside `generate` is the `u64::try_from` `expect`, and it
fires exactly when the saturated difference reaches `2 ^ 64`. -/
lemma fatal_iff {s now_ms : Nat} :
    generateStep s now_ms = StepResult.fatal ↔ 2 ^ 64 ≤ now_ms - EPOCH := by
  unfold generateStep
  split
  · next hc => exact iff_of_true rfl hc
  · next hcond =>
    constructor
    · intro h
      split at h
      · exact StepResult.noConfusion h
      · split at h
        · split at h
          · exact StepResult.noConfusion h
          · exact StepResult.noConfusion h
        · exact StepResult.noConfusion h
    · intro hc
      exact absurd hc hcond

lemma snowflakeNew_none_iff (timestamp sequence : Nat) :
    snowflakeNew timestamp sequence = none ↔
      timestamp < EPOCH ∨ 2 ^ 64 ≤ timestamp - EPOCH := by
  unfold snowflakeNew
  by_cases h1 : timestamp < EPOCH
  · rw [if_pos h1]
    simp [h1]
  · rw [if_neg h1]
    by_cases h2 : 2 ^ 64 ≤ timestamp - EPOCH
    · rw [if_pos h2]
      exact iff_of_true rfl (Or.inr h2)
    · rw [if_neg h2]
      exact iff_of_false (by simp) (by omega)

/-- A successful CAS under a 42-bit-clean clock strictly increases the state
and preserves well-formedness. -/
lemma bstep_lt_and_wf {s s' : Nat} (hs : s < 2 ^ 64) (h : BStep s s') :
    s < s' ∧ s' < 2 ^ 64 := by
  obtain ⟨now_ms, hfit, hcas⟩ := h
  exact ⟨cas_strict_mono hs hfit hcas, cas_lt_u64 hs hcas⟩

/-- Along a chain of successful CAS transitions the state words strictly
increase. -/
lemma chain_lt_of_chain_bstep :
    ∀ (l : List Nat) (s : Nat), s < 2 ^ 64 → List.Chain BStep s l →
      List.Chain (· < ·) s l
  | [], _, _, _ => List.Chain.nil
  | a :: l, s, hs, h => by
    rcases h with _ | ⟨hstep, htail⟩
    obtain ⟨hlt, ha⟩ := bstep_lt_and_wf hs hstep
    exact List.Chain.cons hlt (chain_lt_of_chain_bstep l a ha htail)

/-- Hence all state words ever installed (equivalently, all identifiers ever
returned) along such a chain are pairwise distinct. -/
lemma pairwise_ne_of_chain {s : Nat} {l : List Nat} (hs : s < 2 ^ 64)
    (h : List.Chain BStep s l) : (s :: l).Pairwise (· ≠ ·) := by
  have hlt : List.Chain (· < ·) s l := chain_lt_of_chain_bstep l s hs h
  have hp : (s :: l).Pairwise (· < ·) := List.chain_iff_pairwise.mp hlt
  exact hp.imp Nat.ne_of_lt

lemma stepOutcome_cas (v : Nat) (rest : Option Nat) :
    stepOutcome (StepResult.cas v) rest = some v := rfl

lemma stepOutcome_retry (rest : Option Nat) :
    stepOutcome StepResult.retry rest = rest := rfl

lemma generateRun_succ (s : Nat) (clock : Nat → Nat) (i fuel : Nat) :
    generateRun s clock i (fuel + 1) =
      stepOutcome (generateStep s (clock i)) (generateRun s clock (i + 1) fuel) := by
  simp only [generateRun]

/-- If no iteration panics and iteration `j + k` attempts a CAS, the
uncontended run returns within `k + 1` iterations starting at `j`. -/
lemma generateRun_some_of_cas (s : Nat) (clock : Nat → Nat)
    (hnf : ∀ j, generateStep s (clock j) ≠ StepResult.fatal) :
    ∀ (k j : Nat), (∃ r, generateStep s (clock (j + k)) = StepResult.cas r) →
      ∃ r, generateRun s clock j (k + 1) = some r := by
  intro k
  induction k with
  | zero =>
    intro j hex
    obtain ⟨r, hr⟩ := hex
    rw [Nat.add_zero] at hr
    refine ⟨r, ?_⟩
    rw [generateRun_succ, hr, stepOutcome_cas]
  | succ k ih =>
    intro j hex
    obtain ⟨r, hr⟩ := hex
    rw [generateRun_succ]
    cases hstep : generateStep s (clock j) with
    | fatal => exact absurd hstep (hnf j)
    | cas v => exact ⟨v, stepOutcome_cas v _⟩
    | retry =>
      rw [stepOutcome_retry]
      have harith : j + 1 + k = j + (k + 1) := by omega
      have hr2 : generateStep s (clock (j + 1 + k)) = StepResult.cas r := by
        rw [harith]
        exact hr
      exact ih (j + 1) ⟨r, hr2⟩

/-! ### Claim theorems -/

/-- C1 (amended): provided every clock reading's relative timestamp fits
the 42-bit field (`now_ms - EPOCH < 2 ^ 42`), each successful
compare-and-swap installs a state word strictly greater — as a 64-bit
unsigned integer, equivalently lexicographically as a
(timestamp, sequence) pair — than the word it replaces, and along any
chain of successful CAS transitions of the stored state the installed
words (the returned identifiers) are pairwise distinct.  Without the
42-bit bound the claim fails, see the accompanying counterexample: the
u64 left shift truncates and can install a smaller word. -/
theorem generate_cas_monotone_and_unique :
    (∀ s s' now_ms, s < 2 ^ 64 → now_ms - EPOCH < 2 ^ 42 →
        generateStep s now_ms = StepResult.cas s' → s < s') ∧
    (∀ (s : Nat) (l : List Nat), s < 2 ^ 64 → List.Chain BStep s l →
        (s :: l).Pairwise (· ≠ ·)) :=
  ⟨fun _ _ _ hs hfit h => cas_strict_mono hs hfit h,
   fun _ _ hs h => pairwise_ne_of_chain hs h⟩

/-- Witness for C1 at concrete inputs: from state word 0 a clock reading
one millisecond past the epoch CAS-installs 4194304, strictly above 0, and
the two words of the corresponding chain are distinct. -/
theorem generate_cas_monotone_and_unique_witness :
    (0 : Nat) < 4194304 ∧ ([0, 4194304] : List Nat).Pairwise (· ≠ ·) :=
  ⟨generate_cas_monotone_and_unique.1 0 4194304 (EPOCH + 1) (by decide)
      (by decide) (by decide),
   generate_cas_monotone_and_unique.2 0 [4194304] (by decide)
     (List.Chain.cons ⟨EPOCH + 1, by decide, by decide⟩ List.Chain.nil)⟩

/-- Counterexample to C1 as stated: at the clock reading
`EPOCH + 2 ^ 42` (relative timestamp exactly `2 ^ 42`), the Greater arm
computes `2 ^ 42 << 22`, which truncates to 0 in u64, and a CAS replacing
state word 1 by 0 is attempted — the installed word is strictly smaller
than the word it replaces. -/
theorem generate_cas_decreases_at_overflow :
    generateStep 1 (EPOCH + 2 ^ 42) = StepResult.cas 0 ∧ ¬ ((0 : Nat) > 1) := by
  decide

/-- C2 (amended): in every iteration whose clock reading is strictly
behind the stored timestamp (`now_ms - EPOCH < last_ts`), `generate`
attempts no compare-and-swap and retries (spin, reload, fresh clock
reading); moreover, provided relative timestamps stay below `2 ^ 42`,
any attempted CAS installs a word whose timestamp field is no smaller and
which is strictly greater overall.  Without the 42-bit bound the
never-smaller conclusion fails, see the accompanying counterexample. -/
theorem clock_regression_spins_no_cas :
    (∀ s now_ms, s < 2 ^ 64 → now_ms - EPOCH < s >>> SEQUENCE_BITS →
        generateStep s now_ms = StepResult.retry) ∧
    (∀ s s' now_ms, s < 2 ^ 64 → now_ms - EPOCH < 2 ^ 42 →
        generateStep s now_ms = StepResult.cas s' →
        s >>> SEQUENCE_BITS ≤ s' >>> SEQUENCE_BITS ∧ s < s') := by
  refine ⟨fun s now_ms hs hlt => less_implies_retry hs hlt, ?_⟩
  intro s s' now_ms hs hfit h
  have h1 := cas_strict_mono hs hfit h
  refine ⟨?_, h1⟩
  rw [shiftRight_eq_div, shiftRight_eq_div]
  exact Nat.div_le_div_right (Nat.le_of_lt h1)

/-- Witness for C2 at concrete inputs: state word 4194304 (timestamp 1,
sequence 0) with the clock still at the epoch spins, and from state 0 a
reading two milliseconds past the epoch CAS-installs 8388608 with a
non-decreased timestamp field. -/
theorem clock_regression_spins_no_cas_witness :
    generateStep 4194304 EPOCH = StepResult.retry ∧
    ((0 : Nat) >>> SEQUENCE_BITS ≤ (8388608 : Nat) >>> SEQUENCE_BITS ∧
      (0 : Nat) < 8388608) :=
  ⟨clock_regression_spins_no_cas.1 4194304 EPOCH (by decide) (by decide),
   clock_regression_spins_no_cas.2 0 8388608 (EPOCH + 2) (by decide)
     (by decide) (by decide)⟩

/-- Counterexample to C2's never-smaller conclusion as stated: from state
word 5 (timestamp 0, sequence 5) the reading `EPOCH + 2 ^ 42` makes the
Greater arm attempt a CAS installing 0, whose (timestamp, sequence) pair
(0, 0) is lexicographically smaller than the stored (0, 5). -/
theorem generate_installs_smaller_pair_at_overflow :
    generateStep 5 (EPOCH + 2 ^ 42) = StepResult.cas 0 ∧
    (0 : Nat) >>> SEQUENCE_BITS = (5 : Nat) >>> SEQUENCE_BITS ∧
    (0 : Nat) &&& SEQUENCE_MASK < (5 : Nat) &&& SEQUENCE_MASK := by
  decide

/-- C3: the sequence field of any word is at most `SEQUENCE_MASK =
2 ^ 22 - 1`; in every iteration on the same millisecond with the sequence
exhausted (`last_seq = SEQUENCE_MASK`) no CAS is attempted and `generate`
retries from a freshly reloaded state; and any CAS attempted on the same
millisecond keeps the timestamp field and increments the sequence field by
exactly one — it never wraps to 0 within the same timestamp. -/
theorem sequence_exhaustion_spins_no_wrap :
    (∀ w : Nat, w &&& SEQUENCE_MASK ≤ SEQUENCE_MASK) ∧
    (∀ s now_ms, s < 2 ^ 64 → now_ms - EPOCH = s >>> SEQUENCE_BITS →
        s &&& SEQUENCE_MASK = SEQUENCE_MASK →
        generateStep s now_ms = StepResult.retry) ∧
    (∀ s s' now_ms, s < 2 ^ 64 → now_ms - EPOCH = s >>> SEQUENCE_BITS →
        generateStep s now_ms = StepResult.cas s' →
        s' >>> SEQUENCE_BITS = s >>> SEQUENCE_BITS ∧
        s' &&& SEQUENCE_MASK = (s &&& SEQUENCE_MASK) + 1) := by
  refine ⟨?_, fun s now_ms hs hts hmask => exhausted_implies_retry hs hts hmask, ?_⟩
  · intro w
    rw [land_mask_lit, mask_lit]
    omega
  · intro s s' now_ms hs hts h
    obtain ⟨-, hcase⟩ := generateStep_cas_elim h
    rcases hcase with ⟨hgt, -⟩ | ⟨-, hseq, -⟩
    · omega
    · have h1 : s' = s + 1 := cas_equal_eq_succ hs hts h
      rw [land_mask_lit, mask_lit] at hseq
      rw [shiftRight_lit, shiftRight_lit, land_mask_lit, land_mask_lit, h1]
      omega

/-- Witness for C3 at concrete inputs: word 7 has sequence at most the
mask; state word 4194303 (timestamp 0, sequence exhausted) with the clock
on the same millisecond spins; and from state 0 on the same millisecond
the CAS-installed word 1 keeps timestamp 0 and has sequence 1. -/
theorem sequence_exhaustion_spins_no_wrap_witness :
    ((7 : Nat) &&& SEQUENCE_MASK ≤ SEQUENCE_MASK) ∧
    generateStep 4194303 EPOCH = StepResult.retry ∧
    ((1 : Nat) >>> SEQUENCE_BITS = (0 : Nat) >>> SEQUENCE_BITS ∧
      (1 : Nat) &&& SEQUENCE_MASK = ((0 : Nat) &&& SEQUENCE_MASK) + 1) :=
  ⟨sequence_exhaustion_spins_no_wrap.1 7,
   sequence_exhaustion_spins_no_wrap.2.1 4194303 EPOCH (by decide) (by decide)
     (by decide),
   sequence_exhaustion_spins_no_wrap.2.2 0 1 EPOCH (by decide) (by decide)
     (by decide)⟩

/-- C4 (amended): the panic on converting the relative timestamp fires
exactly when `now_ms - EPOCH` reaches `2 ^ 64` (the `u64::try_from`
bound), both in `generate` and in `Snowflake::new` (where a clock before
the epoch also panics); a relative timestamp merely exceeding the 42-bit
field (in `[2 ^ 42, 2 ^ 64)`) does NOT abort — it is silently truncated
by the left shift, see the accompanying counterexample. -/
theorem overflow_panic_only_at_u64 :
    (∀ s now_ms, generateStep s now_ms = StepResult.fatal ↔
        2 ^ 64 ≤ now_ms - EPOCH) ∧
    (∀ timestamp sequence, snowflakeNew timestamp sequence = none ↔
        timestamp < EPOCH ∨ 2 ^ 64 ≤ timestamp - EPOCH) :=
  ⟨fun _ _ => fatal_iff, fun t u => snowflakeNew_none_iff t u⟩

/-- Counterexample to C4 as stated: at the reading `EPOCH + 2 ^ 42` the
relative timestamp is exactly `2 ^ 42` (it no longer fits the 42-bit
field), yet neither `generate` nor `Snowflake::new` panics — both
silently truncate the shifted value to the identifier 0. -/
theorem no_panic_at_42bit_overflow :
    EPOCH + 2 ^ 42 - EPOCH = 2 ^ 42 ∧
    generateStep 0 (EPOCH + 2 ^ 42) = StepResult.cas 0 ∧
    snowflakeNew (EPOCH + 2 ^ 42) 0 = some 0 := by
  decide

/-- C5: for every clock reading strictly before the reference epoch,
constructing a generator panics (the u128 subtraction in
`Snowflake::new` overflows in debug, and in release the wrapped value
fails `u64::try_from`) instead of packing a wrapped timestamp. -/
theorem construct_before_epoch_panics (now_ms : Nat) (h : now_ms < EPOCH) :
    generatorNew now_ms = none := by
  unfold generatorNew snowflakeNew
  rw [if_pos h]

/-- Witness for C5 at the concrete reading 0 (the UNIX epoch itself,
before the 2026 reference epoch). -/
theorem construct_before_epoch_panics_witness :
    (0 : Nat) < EPOCH ∧ generatorNew 0 = none :=
  ⟨by decide, construct_before_epoch_panics 0 (by decide)⟩

/-- C6: an uncontended call to `generate` eventually returns, provided the
clock behaves correctly: every reading's relative timestamp fits the
42-bit field (so no panic) and some iteration observes a reading strictly
past the stored timestamp (the clock catches up after a regression and
eventually advances past an exhausted millisecond).  No retry bound is
imposed: the returned fuel is found, not assumed. -/
theorem generate_terminates_uncontended (s : Nat) (clock : Nat → Nat)
    (_hs : s < 2 ^ 64)
    (hclock : ∀ j, clock j - EPOCH < 2 ^ 42)
    (hadv : ∃ i, s >>> SEQUENCE_BITS < clock i - EPOCH) :
    ∃ fuel r, generateRun s clock 0 fuel = some r := by
  obtain ⟨i, hi⟩ := hadv
  have hnf : ∀ j, generateStep s (clock j) ≠ StepResult.fatal := by
    intro j hj
    have h1 := fatal_iff.mp hj
    have h2 := hclock j
    omega
  have hcas : ∃ r, generateStep s (clock (0 + i)) = StepResult.cas r := by
    rw [Nat.zero_add]
    refine ⟨((clock i - EPOCH) <<< SEQUENCE_BITS) % 2 ^ 64, ?_⟩
    unfold generateStep
    rw [if_neg (by have := hclock i; omega), if_pos hi]
  obtain ⟨r, hr⟩ := generateRun_some_of_cas s clock hnf i 0 hcas
  exact ⟨i + 1, r, hr⟩

/-- Witness for C6: from state 0 with a constant clock one millisecond
past the epoch, the uncontended run returns. -/
theorem generate_terminates_uncontended_witness :
    ∃ fuel r, generateRun 0 (fun _ => EPOCH + 1) 0 fuel = some r :=
  generate_terminates_uncontended 0 (fun _ => EPOCH + 1) (by decide)
    (fun _ => (by decide : EPOCH + 1 - EPOCH < 2 ^ 42))
    ⟨0, (by decide : (0 : Nat) >>> SEQUENCE_BITS < EPOCH + 1 - EPOCH)⟩

/-- C7: for every clock reading strictly before the reference epoch, the
`now_ts` computation in `generate` saturates to 0 — `saturating_sub`
never underflows and `u64::try_from` succeeds, so no panic and no wrap. -/
theorem now_ts_saturates_to_zero (now_ms : Nat) (h : now_ms < EPOCH) :
    nowTs now_ms = some 0 := by
  unfold nowTs
  rw [if_neg (by omega)]
  have h0 : now_ms - EPOCH = 0 := by omega
  rw [h0]

/-- Witness for C7 at the concrete reading 0. -/
theorem now_ts_saturates_to_zero_witness :
    (0 : Nat) < EPOCH ∧ nowTs 0 = some 0 :=
  ⟨by decide, now_ts_saturates_to_zero 0 (by decide)⟩

/-- C8: for every 64-bit identifier word, re-packing via `Snowflake::new`
the absolute timestamp recovered by `extract_unix_timestamp` together with
the word's low 22 sequence bits reproduces the word exactly. -/
theorem snowflake_roundtrip (w : Nat) (hw : w < 2 ^ 64) :
    snowflakeNew (extract_unix_timestamp w) (w &&& SEQUENCE_MASK) = some w := by
  unfold extract_unix_timestamp snowflakeNew
  rw [shiftRight_lit, land_mask_lit, land_mask_lit]
  rw [if_neg (by omega), if_neg (by omega)]
  have h1 : w / 4194304 + EPOCH - EPOCH = w / 4194304 := by
    omega
  rw [h1, shiftLeft_eq_mul, pow_bits_lit]
  rw [Nat.mod_eq_of_lt (by omega : w / 4194304 * 4194304 < 2 ^ 64)]
  rw [lor_low_lit _ _ (by omega : w % 4194304 % 4194304 < 4194304)]
  have h2 : w / 4194304 * 4194304 + w % 4194304 % 4194304 = w := by omega
  rw [h2]

/-- Witness for C8 at the concrete identifier 8388609
(timestamp field 2, sequence 1). -/
theorem snowflake_roundtrip_witness :
    (8388609 : Nat) < 2 ^ 64 ∧
    snowflakeNew (extract_unix_timestamp 8388609)
      ((8388609 : Nat) &&& SEQUENCE_MASK) = some 8388609 :=
  ⟨by decide, snowflake_roundtrip 8388609 (by decide)⟩

/-- C9: `extract_unix_timestamp` returns exactly `(w >> 22) + EPOCH` for
every word, and for every in-range pair it recovers the absolute
millisecond timestamp `timestamp_rel + EPOCH` from the packed word. -/
theorem extract_unix_timestamp_correct :
    (∀ w : Nat, extract_unix_timestamp w = (w >>> SEQUENCE_BITS) + EPOCH) ∧
    (∀ ts seq : Nat, ts < 2 ^ 42 → seq < 2 ^ SEQUENCE_BITS →
        extract_unix_timestamp (pack ts seq) = ts + EPOCH) := by
  refine ⟨fun w => rfl, fun ts seq hts hseq => ?_⟩
  rw [pack_eq_of_fits ts seq hts hseq]
  unfold extract_unix_timestamp
  rw [shiftRight_lit, pow_bits_lit]
  rw [pow_bits_lit] at hseq
  congr 1
  omega

/-- Witness for C9 at concrete inputs: word 42, and the pair (3, 5). -/
theorem extract_unix_timestamp_correct_witness :
    extract_unix_timestamp 42 = ((42 : Nat) >>> SEQUENCE_BITS) + EPOCH ∧
    extract_unix_timestamp (pack 3 5) = 3 + EPOCH :=
  ⟨extract_unix_timestamp_correct.1 42,
   extract_unix_timestamp_correct.2 3 5 (by decide) (by decide)⟩

/-- C10: on in-range pairs (timestamp below `2 ^ 42`, sequence below
`2 ^ 22`) the packing is an order isomorphism onto its image: packed words
compare as unsigned integers exactly as the pairs compare
lexicographically, and are equal exactly when the pairs are equal. -/
theorem pack_lex_order_iso (ts1 seq1 ts2 seq2 : Nat)
    (ht1 : ts1 < 2 ^ 42) (hq1 : seq1 < 2 ^ SEQUENCE_BITS)
    (ht2 : ts2 < 2 ^ 42) (hq2 : seq2 < 2 ^ SEQUENCE_BITS) :
    (pack ts1 seq1 < pack ts2 seq2 ↔
      (ts1 < ts2 ∨ (ts1 = ts2 ∧ seq1 < seq2))) ∧
    (pack ts1 seq1 = pack ts2 seq2 ↔ (ts1 = ts2 ∧ seq1 = seq2)) := by
  rw [pack_eq_of_fits ts1 seq1 ht1 hq1, pack_eq_of_fits ts2 seq2 ht2 hq2]
  rw [pow_bits_lit] at hq1 hq2 ⊢
  constructor
  · constructor
    · intro h
      omega
    · intro h
      omega
  · constructor
    · intro h
      omega
    · intro h
      omega

/-- Witness for C10 at concrete pairs (1, 0) and (0, 4194303): a higher
timestamp dominates any sequence value. -/
theorem pack_lex_order_iso_witness :
    (pack 0 4194303 < pack 1 0 ↔
      ((0 : Nat) < 1 ∨ ((0 : Nat) = 1 ∧ (4194303 : Nat) < 0))) ∧
    (pack 0 4194303 = pack 1 0 ↔ ((0 : Nat) = 1 ∧ (4194303 : Nat) = 0)) :=
  pack_lex_order_iso 0 4194303 1 0 (by decide) (by decide) (by decide)
    (by decide)

end Snof
